import Mathlib

/-!
Shallow embedding of `db/design_doc.go` from the sync_gateway repository:
channel-based visibility filtering of view results, access gating of design
document (index) management and querying, view-map wrapping on store, and
N1QL (analytic) query filtering.

Modelling conventions:
* `db.user` is modelled as `Option (List String)`: `none` is an administrator
  (no principal attached); `some visibleChannels` is an end user whose
  `InheritedChannels()` channel set is the list (membership = `List.contains`,
  matching `ch.TimedSet.Contains`).
* JSON-decoded Go `interface\x7b\x7d` values are modelled by the `JSON` inductive;
  a Go `nil` interface (absent key or decoded JSON null) is `JSON.null` /
  an absent association.
* A Go runtime panic (failed type assertion `x.([]interface\x7b\x7d)`,
  `x.(string)`, or slice index out of range) is modelled by `Option`:
  `none` is a panic, `some v` a normal return of `v`.
* Store/bucket operations (GetDDoc, PutDDoc, DeleteDDoc, View,
  ExecuteN1qlQuery) are external collaborators; each modelled operation takes
  the store outcome as an explicit parameter.
-/

/-- JSON-like values, modelling decoded Go `interface` data. -/
inductive JSON where
  | null : JSON
  | str : String → JSON
  | num : Int → JSON
  | bool : Bool → JSON
  | arr : List JSON → JSON
  | obj : List (String × JSON) → JSON

/-- Is this value JSON `null` (a Go `nil` interface after decoding)? -/
def JSON.isNull : JSON → Bool
  | .null => true
  | _ => false

/-- `sgbucket.ViewRow`: key, value, document id, optional embedded document
(the document is a decoded JSON object, i.e. a `map[string]interface` =
association list). -/
structure ViewRow where
  key : JSON
  value : JSON
  id : String
  doc : Option (List (String × JSON))

/-- `sgbucket.ViewResult`: total row count plus the rows. -/
structure ViewResult where
  totalRows : Nat
  rows : List ViewRow

/-- Errors surfaced by the modelled operations: `base.HTTPErrorf(403, "forbidden")`
or a propagated store-level error. -/
inductive HTTPError where
  | forbidden : HTTPError
  | storeError : String → HTTPError
deriving DecidableEq

/-- Go `strings.HasPrefix(s, pre)`, written structurally so that concrete
instances reduce. -/
def strHasPre (s pre : String) : Bool :=
  pre.toList.isPrefixOf s.toList

/-- `isInternalDDoc`: a design doc name is internal iff it has the prefix
string `sync_` at its start. -/
def isInternalDDoc (ddocName : String) : Bool :=
  strHasPre ddocName "sync_"

/-- `checkDDocAccess`: forbidden whenever an end-user principal is attached or
the design doc is internal. -/
def checkDDocAccess (user : Option (List String)) (ddocName : String) :
    Except HTTPError Unit :=
  if user.isSome || isInternalDDoc ddocName then .error .forbidden
  else .ok ()

/-- `delete(doc, "_sync")` on a decoded document object. -/
def deleteSyncKey (doc : List (String × JSON)) : List (String × JSON) :=
  doc.filter (fun kv => !(kv.1 == "_sync"))

/-- `stripSyncProperty`: if the row carries a document, remove its `_sync`
property. -/
def stripSyncProperty (row : ViewRow) : ViewRow :=
  { row with doc := row.doc.map deleteSyncKey }

/-- `channelsIntersect(visibleChannels, channels)`: is any item of `channels`
found in `visibleChannels`, or equal to the wildcard string?  Each element is
type-asserted to `string` first; a non-string element reached before a
successful test is a panic (`none`). -/
def channelsIntersect (visibleChannels : List String) :
    List JSON → Option Bool
  | [] => some false
  | c :: rest =>
    match c with
    | .str s =>
      if visibleChannels.contains s || s == "*" then some true
      else channelsIntersect visibleChannels rest
    | _ => none

/-- The row loop of `filterViewResult`.  With `reduce` set, each row is
re-added raw (key, value, id; no doc).  Otherwise the row's value is asserted
to be an array; element 0 (asserted to be an array: the channel list) is
consulted only when `checkChannels`, and element 1 becomes the output value of
a retained row, whose doc is `_sync`-stripped. -/
def filterRows (visibleChannels : List String) (checkChannels reduce : Bool) :
    List ViewRow → Option (List ViewRow)
  | [] => some []
  | row :: rest =>
    if reduce then
      match filterRows visibleChannels checkChannels reduce rest with
      | some rs => some (⟨row.key, row.value, row.id, none⟩ :: rs)
      | none => none
    else
      match row.value with
      | .arr vs =>
        let keep : Option Bool :=
          if checkChannels then
            match vs with
            | ch0 :: _ =>
              match ch0 with
              | .arr chlist => channelsIntersect visibleChannels chlist
              | _ => none
            | [] => none
          else some true
        match keep with
        | none => none
        | some true =>
          match vs with
          | _ :: v1 :: _ =>
            match filterRows visibleChannels checkChannels reduce rest with
            | some rs =>
              some (⟨row.key, v1, row.id, (stripSyncProperty row).doc⟩ :: rs)
            | none => none
          | _ => none
        | some false => filterRows visibleChannels checkChannels reduce rest
      | _ => none

/-- `filterViewResult(input, user, reduce)`.  With a user attached and
`reduce` set, the function returns the zero-value result (total 0, no rows)
via the bare `return` — the source comments this line `this is an error`.
Otherwise the total row count is copied from the input and the row loop runs
(`checkChannels` is true iff the attached user's channel set lacks `*`;
with no user it is false). -/
def filterViewResult (input : ViewResult) (user : Option (List String))
    (reduce : Bool) : Option ViewResult :=
  match user with
  | some visibleChannels =>
    if reduce then some ⟨0, []⟩
    else
      match filterRows visibleChannels (!visibleChannels.contains "*") false
          input.rows with
      | some rs => some ⟨input.totalRows, rs⟩
      | none => none
  | none =>
    match filterRows [] false reduce input.rows with
    | some rs => some ⟨input.totalRows, rs⟩
    | none => none

/-- `QueryDesignDoc(ddocName, viewName, options)`, with the store's
`Bucket.View` outcome passed explicitly.  Query access control: forbidden iff
a user is attached and the ddoc is internal.  A store error is returned as-is.
Internal ddocs skip channel filtering but strip `_sync` from docs when
`include_docs` was requested; other ddocs go through `filterViewResult`. -/
def QueryDesignDoc (user : Option (List String)) (ddocName : String)
    (store : Except String ViewResult) (includeDocs reduce : Bool) :
    Option (Except HTTPError ViewResult) :=
  if user.isSome && isInternalDDoc ddocName then some (.error .forbidden)
  else
    match store with
    | .error e => some (.error (.storeError e))
    | .ok result =>
      if isInternalDDoc ddocName then
        if includeDocs then
          some (.ok ⟨result.totalRows, result.rows.map stripSyncProperty⟩)
        else some (.ok result)
      else
        match filterViewResult result user reduce with
        | some res => some (.ok res)
        | none => none

/-- `sgbucket.View`: a view definition with map and reduce function sources. -/
structure ViewDef where
  map : String
  reduce : String
deriving DecidableEq

/-- `sgbucket.DesignDocOptions`: only the `Raw` flag matters here. -/
structure DesignDocOptions where
  raw : Bool
deriving DecidableEq

/-- `DesignDoc`: the views map (modelled as an association list; Go map
iteration order does not affect the result of `wrapViews`) plus optional
options. -/
structure DesignDoc where
  views : List (String × ViewDef)
  options : Option DesignDocOptions
deriving DecidableEq

/-- Text of the channel-injecting wrapper placed before the original map
function source (from the raw string literal in `wrapViews`). -/
def wrapHeader : String :=
  "function(doc,meta) \x7b\n" ++
  "\t                    var sync = doc._sync;\n" ++
  "\t                    if (sync === undefined || meta.id.substring(0,6) == \"_sync:\")\n" ++
  "\t                      return;\n" ++
  "\t                    if ((sync.flags & 1) || sync.deleted)\n" ++
  "\t                      return;\n" ++
  "\t                    var channels = [];\n" ++
  "\t                    var channelMap = sync.channels;\n" ++
  "\t\t\t\t\t\tif (channelMap) \x7b\n" ++
  "\t\t\t\t\t\t\tfor (var name in channelMap) \x7b\n" ++
  "\t\t\t\t\t\t\t\tremoved = channelMap[name];\n" ++
  "\t\t\t\t\t\t\t\tif (!removed)\n" ++
  "\t\t\t\t\t\t\t\t\tchannels.push(name);\n" ++
  "\t\t\t\t\t\t\t\x7d\n" ++
  "\t\t\t\t\t\t\x7d\n" ++
  "\t                    delete doc._sync;\n" ++
  "\t                    meta.rev = sync.rev;\n" ++
  "\t                    meta.channels = channels;\n" ++
  "\n" ++
  "\t                    var _emit = emit;\n" ++
  "\t                    (function()\x7b\n" ++
  "\t\t                    var emit = function(key,value) \x7b\n" ++
  "\t\t                    \t_emit(key,[channels, value]);\n" ++
  "\t\t                    \x7d;\n" ++
  "\t\t\t\t\t\t\t("

/-- Text of the wrapper placed after the original map function source. -/
def wrapFooter : String :=
  ") (doc, meta);\n" ++
  "\t\t\t\t\t\t\x7d());\n" ++
  "\t\t\t\t\t\tdoc._sync = sync;\n" ++
  "\t\t\t\t\t\x7d"

/-- The wrapped map function: the wrapper embeds the original source between
header and footer. -/
def wrapMapFn (m : String) : String :=
  wrapHeader ++ m ++ wrapFooter

/-- `wrapViews`: every view's map function is replaced by the wrapper; the
reduce function and the view names are untouched. -/
def wrapViews (views : List (String × ViewDef)) : List (String × ViewDef) :=
  views.map (fun nv => (nv.1, { nv.2 with map := wrapMapFn nv.2.map }))

/-- `GetDesignDoc`: access check, then delegate to `Bucket.GetDDoc` (outcome
passed as `store`). -/
def GetDesignDoc (user : Option (List String)) (ddocName : String)
    (store : Except String Unit) : Except HTTPError Unit :=
  match checkDDocAccess user ddocName with
  | .error e => .error e
  | .ok _ =>
    match store with
    | .error e => .error (.storeError e)
    | .ok _ => .ok ()

/-- `DeleteDesignDoc`: access check, then delegate to `Bucket.DeleteDDoc`. -/
def DeleteDesignDoc (user : Option (List String)) (ddocName : String)
    (store : Except String Unit) : Except HTTPError Unit :=
  match checkDDocAccess user ddocName with
  | .error e => .error e
  | .ok _ =>
    match store with
    | .error e => .error (.storeError e)
    | .ok _ => .ok ()

/-- Observable outcome of `PutDesignDoc`: the returned error value, the state
of the caller-shared `Views` map after the call (Go maps are references, so
`wrapViews(&ddoc)` mutates the caller's map entries), and the design document
passed to `Bucket.PutDDoc` when that call was made. -/
structure PutOutcome where
  result : Except HTTPError Unit
  viewsAfter : List (String × ViewDef)
  storeCall : Option DesignDoc

/-- `PutDesignDoc`: wrap is suppressed only when options are present with
`Raw == true`; wrapping happens before the access check; the store write is
attempted only when the access check succeeds. -/
def PutDesignDoc (user : Option (List String)) (ddocName : String)
    (ddoc : DesignDoc) (store : Except String Unit) : PutOutcome :=
  let wrap : Bool :=
    match ddoc.options with
    | some opts => !opts.raw
    | none => true
  let ddoc2 := if wrap then { ddoc with views := wrapViews ddoc.views } else ddoc
  match checkDDocAccess user ddocName with
  | .error e => ⟨.error e, ddoc2.views, none⟩
  | .ok _ =>
    match store with
    | .error e => ⟨.error (.storeError e), ddoc2.views, some ddoc2⟩
    | .ok _ => ⟨.ok (), ddoc2.views, some ddoc2⟩

/-- The channel-projection clause checked by `N1QLQuery` with
`strings.HasPrefix`. -/
def metaClause : String := "SELECT _sync.channels as _channels,"

/-- A decoded N1QL row: a `map[string]interface` as an association list. -/
abbrev N1QLRow := List (String × JSON)

/-- `N1QLResult`: the accumulated rows. -/
structure N1QLResult where
  rows : List N1QLRow

/-- `row["_channels"]`-style lookup on a decoded row: first binding of the
key, `none` when absent (a Go map miss yields the `nil` interface). -/
def lookupField (row : N1QLRow) (k : String) : Option JSON :=
  (row.find? (fun kv => kv.1 == k)).map (fun kv => kv.2)

/-- The live channel names of a `_channels` projection object: the keys whose
status value is JSON null (Go `channelStatus == nil`). -/
def liveChannelNames (docChannels : List (String × JSON)) : List String :=
  (docChannels.filter (fun kv => kv.2.isNull)).map (fun kv => kv.1)

/-- The cursor loop of `N1QLQuery`.  Without channel checking every row is
appended.  With it, a row whose `_channels` field is absent or null is
dropped; otherwise the field is asserted to be an object (panic if not), its
live channel names are collected, and the row is kept iff
`channelsIntersect` holds on them. -/
def n1qlFilterRows (visibleChannels : List String) (checkChannels : Bool) :
    List N1QLRow → Option (List N1QLRow)
  | [] => some []
  | row :: rest =>
    if checkChannels then
      match lookupField row "_channels" with
      | none => n1qlFilterRows visibleChannels checkChannels rest
      | some docCh0 =>
        if docCh0.isNull then n1qlFilterRows visibleChannels checkChannels rest
        else
          match docCh0 with
          | .obj docChannels =>
            match channelsIntersect visibleChannels
                ((liveChannelNames docChannels).map JSON.str) with
            | some true =>
              match n1qlFilterRows visibleChannels checkChannels rest with
              | some rs => some (row :: rs)
              | none => none
            | some false => n1qlFilterRows visibleChannels checkChannels rest
            | none => none
          | _ => none
    else
      match n1qlFilterRows visibleChannels checkChannels rest with
      | some rs => some (row :: rs)
      | none => none

/-- `N1QLQuery(queryName, options)`.  `queryString` is the result of the
`db.N1QLQueries[queryName]` lookup (empty string when unregistered).  The
store call `ExecuteN1qlQuery` returns `(rows, err)`; the source binds the
error to `_` and never consults it, so it is a parameter the body ignores;
`cursorRows` is the sequence the cursor yields.  Restricted users (channel
set without `*`) may only run queries whose text starts with the
channel-projection clause; their rows are then filtered by
`n1qlFilterRows`. -/
def N1QLQuery (user : Option (List String)) (queryString : String)
    (_storeErr : Option String) (cursorRows : List N1QLRow) :
    Option (Except HTTPError N1QLResult) :=
  if queryString == "" then some (.ok ⟨[]⟩)
  else
    let hasMeta := strHasPre queryString metaClause
    let visibleChannels : List String :=
      match user with
      | some v => v
      | none => []
    let checkChannels : Bool :=
      match user with
      | some v => !v.contains "*"
      | none => false
    if checkChannels && !hasMeta then some (.error .forbidden)
    else
      match n1qlFilterRows visibleChannels checkChannels cursorRows with
      | some rs => some (.ok ⟨rs⟩)
      | none => none

/-! ## Helper notions for stating the claims -/

/-- An input row of a channel-tagged (non-reduce) view result, in decomposed
form: the value is the 2-element `[channel-list, actual-value]` structure. -/
structure TaggedEntry where
  key : JSON
  channels : List String
  val : JSON
  id : String
  doc : Option (List (String × JSON))

/-- The `ViewRow` carrying a tagged entry. -/
def entryRow (e : TaggedEntry) : ViewRow :=
  ⟨e.key, .arr [.arr (e.channels.map JSON.str), e.val], e.id, e.doc⟩

/-- Retention predicate of the filter on a tagged entry. -/
def entryKeep (visibleChannels : List String) (e : TaggedEntry) : Bool :=
  e.channels.any (fun c => visibleChannels.contains c || c == "*")

/-- The output row produced for a retained tagged entry. -/
def entryOut (e : TaggedEntry) : ViewRow :=
  ⟨e.key, e.val, e.id, e.doc.map deleteSyncKey⟩

/-- Retention predicate of the N1QL row loop on a row, from the row field
named `_channels`: live channel names tested against the channel set of the
user or the wildcard.  Rows without an object-valued `_channels` field are
not retained. -/
def n1qlKeep (visibleChannels : List String) (row : N1QLRow) : Bool :=
  match lookupField row "_channels" with
  | some (.obj docChannels) =>
    (liveChannelNames docChannels).any
      (fun c => visibleChannels.contains c || c == "*")
  | _ => false

/-- How the returned error of a management operation relates to the delegated
store outcome when access is granted. -/
def mapStoreErr (store : Except String Unit) : Except HTTPError Unit :=
  match store with
  | .error e => .error (.storeError e)
  | .ok _ => .ok ()

/-- A channel-tagged row on channels `chat, admin`, carrying a document with
a `_sync` block. -/
def exEntry1 : TaggedEntry :=
  ⟨.str "k1", ["chat", "admin"], .obj [("type", .str "msg")], "doc1",
    some [("_sync", .obj [("rev", .str "1-x")]), ("type", .str "msg")]⟩

/-- A channel-tagged row on channel `other`, no document. -/
def exEntry2 : TaggedEntry :=
  ⟨.str "k2", ["other"], .num 2, "doc2", none⟩

/-- A row whose only live channel is the wildcard `*` itself. -/
def c6Row : N1QLRow := [("_channels", .obj [("*", .null)]), ("t", .num 1)]

/-- A row live on `chat` (and removed from `old`). -/
def c6RowChat : N1QLRow :=
  [("_channels", .obj [("chat", .null), ("old", .str "2-x")]), ("t", .num 1)]

/-- A row live only on `other`. -/
def c6RowOther : N1QLRow := [("_channels", .obj [("other", .null)]), ("t", .num 2)]

/-- A one-view design document body used by witnesses. -/
def exViews : List (String × ViewDef) :=
  [("v1", ⟨"function(d,m) emit(d.type, 1)", ""⟩)]

/-- On a list of strings (as JSON), `channelsIntersect` never panics and
computes the any-of test. -/
theorem channelsIntersect_strings (visible : List String) (chs : List String) :
    channelsIntersect visible (chs.map JSON.str) =
      some (chs.any (fun c => visible.contains c || c == "*")) := by
  induction chs with
  | nil => rfl
  | cons c rest ih =>
    simp only [List.map_cons, channelsIntersect, List.any_cons]
    cases hc : visible.contains c || c == "*"
    · simp only [hc, Bool.false_eq_true, if_false, ih, Bool.false_or]
    · simp only [hc, if_true, Bool.true_or]

/-- The non-reduce row loop with channel checking filters tagged entries by
`entryKeep` and rewrites the retained ones by `entryOut`. -/
theorem filterRows_check (visible : List String) (entries : List TaggedEntry) :
    filterRows visible true false (entries.map entryRow) =
      some ((entries.filter (entryKeep visible)).map entryOut) := by
  induction entries with
  | nil => rfl
  | cons e rest ih =>
    simp only [List.map_cons, filterRows, entryRow, channelsIntersect_strings]
    cases hb : e.channels.any fun c => visible.contains c || c == "*"
    · have h2 : ¬ ∃ x ∈ e.channels, x ∈ visible ∨ x = "*" := by simpa using hb
      simp [ih, List.filter_cons, entryKeep, hb, entryOut, stripSyncProperty, h2]
    · have h2 : ∃ x ∈ e.channels, x ∈ visible ∨ x = "*" := by simpa using hb
      simp [ih, List.filter_cons, entryKeep, hb, entryOut, stripSyncProperty, h2]

/-- Without channel checking the non-reduce row loop keeps every tagged entry
(still rewriting value and stripping the doc). -/
theorem filterRows_nocheck (visible : List String) (entries : List TaggedEntry) :
    filterRows visible false false (entries.map entryRow) =
      some (entries.map entryOut) := by
  induction entries with
  | nil => rfl
  | cons e rest ih =>
    simp [filterRows, entryRow, entryOut, stripSyncProperty, ih]

/-- With `reduce` set the row loop re-adds every row raw (no doc). -/
theorem filterRows_reduce (visible : List String) (cc : Bool)
    (rows : List ViewRow) :
    filterRows visible cc true rows =
      some (rows.map (fun r => ⟨r.key, r.value, r.id, none⟩)) := by
  induction rows with
  | nil => rfl
  | cons r rest ih => simp [filterRows, ih]

/-- A `_sync`-stripped document has no `_sync` binding left. -/
theorem deleteSyncKey_clean (doc : List (String × JSON)) :
    (deleteSyncKey doc).find? (fun kv => kv.1 == "_sync") = none := by
  rw [List.find?_eq_none]
  intro kv hkv
  have := List.of_mem_filter hkv
  simpa using this

/-- Without channel checking the N1QL row loop keeps every row. -/
theorem n1qlFilterRows_nocheck (visible : List String) (rows : List N1QLRow) :
    n1qlFilterRows visible false rows = some rows := by
  induction rows with
  | nil => rfl
  | cons r rest ih => simp [n1qlFilterRows, ih]

/-- With channel checking, on rows whose `_channels` field (when present) is
null or an object, the N1QL row loop filters by `n1qlKeep`. -/
theorem n1qlFilterRows_check (visible : List String) (rows : List N1QLRow)
    (hwf : ∀ r ∈ rows, ∀ v, lookupField r "_channels" = some v →
      v.isNull = true ∨ ∃ m, v = .obj m) :
    n1qlFilterRows visible true rows = some (rows.filter (n1qlKeep visible)) := by
  induction rows with
  | nil => rfl
  | cons r rest ih =>
    have ih2 := ih (fun x hx => hwf x (List.mem_cons_of_mem r hx))
    simp only [n1qlFilterRows]
    cases hl : lookupField r "_channels" with
    | none =>
      simp [ih2, List.filter_cons, n1qlKeep, hl]
    | some v =>
      rcases hwf r (List.mem_cons_self r rest) v hl with hnull | ⟨m, rfl⟩
      · cases v with
        | null => simp [ih2, List.filter_cons, n1qlKeep, hl, JSON.isNull]
        | str s => simp [JSON.isNull] at hnull
        | num n => simp [JSON.isNull] at hnull
        | bool b => simp [JSON.isNull] at hnull
        | arr xs => simp [JSON.isNull] at hnull
        | obj m => simp [JSON.isNull] at hnull
      · simp only [hl, JSON.isNull, channelsIntersect_strings]
        cases hb : (liveChannelNames m).any
            (fun c => visible.contains c || c == "*")
        · have h2 : ¬ ∃ x ∈ liveChannelNames m, x ∈ visible ∨ x = "*" := by
            simpa using hb
          simp [ih2, List.filter_cons, n1qlKeep, hl, hb, h2]
        · have h2 : ∃ x ∈ liveChannelNames m, x ∈ visible ∨ x = "*" := by
            simpa using hb
          simp [ih2, List.filter_cons, n1qlKeep, hl, hb, h2]

/-! ## Claims -/

/-- C1: in the Result Filter's non-reduce path, a restricted end user (channel
set without the wildcard) retains a channel-tagged row iff the row's channel
list contains a channel of the user's set or contains the wildcard `*`
(conjunct 2 restates the retention predicate in those terms); an unrestricted
caller (wildcard set, or no principal) retains every row. -/
theorem C1_filter_retention (visible : List String) (total : Nat)
    (entries : List TaggedEntry) :
    (visible.contains "*" = false →
      filterViewResult ⟨total, entries.map entryRow⟩ (some visible) false =
        some ⟨total, (entries.filter (entryKeep visible)).map entryOut⟩)
    ∧ (∀ e : TaggedEntry, entryKeep visible e = true ↔
        ((∃ c ∈ e.channels, c ∈ visible) ∨ "*" ∈ e.channels))
    ∧ (visible.contains "*" = true →
      filterViewResult ⟨total, entries.map entryRow⟩ (some visible) false =
        some ⟨total, entries.map entryOut⟩)
    ∧ filterViewResult ⟨total, entries.map entryRow⟩ none false =
        some ⟨total, entries.map entryOut⟩ := by
  refine ⟨?_, ?_, ?_, ?_⟩
  · intro h
    have h2 : "*" ∉ visible := by simpa using h
    simp [filterViewResult, filterRows_check, h2]
  · intro e
    constructor
    · intro h
      have h2 : ∃ c ∈ e.channels, c ∈ visible ∨ c = "*" := by
        simpa [entryKeep] using h
      rcases h2 with ⟨c, hc, h | rfl⟩
      · exact .inl ⟨c, hc, h⟩
      · exact .inr hc
    · intro h
      have h2 : ∃ c ∈ e.channels, c ∈ visible ∨ c = "*" := by
        rcases h with ⟨c, hc, hv⟩ | h
        · exact ⟨c, hc, .inl hv⟩
        · exact ⟨"*", h, .inr rfl⟩
      simpa [entryKeep] using h2
  · intro h
    have h2 : "*" ∈ visible := by simpa using h
    simp [filterViewResult, filterRows_nocheck, h2]
  · simp [filterViewResult, filterRows_nocheck]

/-- Witness for C1 at the spec's scenario: user channels `chat`, one row on
`chat, admin` (kept, value rewritten) and one on `other` (dropped). -/
theorem C1_filter_retention_witness :
    filterViewResult ⟨2, [entryRow exEntry1, entryRow exEntry2]⟩
        (some ["chat"]) false =
      some ⟨2, [entryOut exEntry1]⟩ :=
  (C1_filter_retention ["chat"] 2 [exEntry1, exEntry2]).1 rfl

/-- C2 (code bug): a reduce query by a restricted end user on a non-internal
index does NOT signal an error — `filterViewResult` bare-returns the
zero-value result and `QueryDesignDoc` reports success with an empty row set
(total 0); the same call with no principal succeeds with the raw reduce rows.
The source itself marks the early return `// this is an error`. -/
theorem C2_reduce_silent_empty :
    QueryDesignDoc (some ["chat"]) "byType"
        (.ok ⟨3, [entryRow exEntry1]⟩) false true = some (.ok ⟨0, []⟩)
    ∧ QueryDesignDoc none "byType"
        (.ok ⟨3, [entryRow exEntry1]⟩) false true =
      some (.ok ⟨3, [⟨(entryRow exEntry1).key, (entryRow exEntry1).value,
        (entryRow exEntry1).id, none⟩]⟩) :=
  ⟨rfl, rfl⟩

/-- C3 refuted: an administrator (no principal attached) managing the internal
index `sync_gateway` is denied with Forbidden by all three management
operations, so administrators do not succeed on internal names. -/
theorem C3_counterexample :
    GetDesignDoc none "sync_gateway" (.ok ()) = .error .forbidden
    ∧ (PutDesignDoc none "sync_gateway" ⟨[], none⟩ (.ok ())).result =
        .error .forbidden
    ∧ DeleteDesignDoc none "sync_gateway" (.ok ()) = .error .forbidden :=
  ⟨rfl, rfl, rfl⟩

/-- C3 amended: GetDesignDoc, PutDesignDoc and DeleteDesignDoc delegate to the
store exactly when the caller is an administrator and the index name is not
internal; every call with an end-user principal attached, and every call on an
internal name (administrator included), fails with Forbidden. -/
theorem C3_management_access (user : Option (List String)) (name : String)
    (g p d : Except String Unit) (ddoc : DesignDoc) :
    (user = none → isInternalDDoc name = false →
      GetDesignDoc user name g = mapStoreErr g
      ∧ (PutDesignDoc user name ddoc p).result = mapStoreErr p
      ∧ DeleteDesignDoc user name d = mapStoreErr d)
    ∧ (user.isSome = true ∨ isInternalDDoc name = true →
      GetDesignDoc user name g = .error .forbidden
      ∧ (PutDesignDoc user name ddoc p).result = .error .forbidden
      ∧ DeleteDesignDoc user name d = .error .forbidden) := by
  constructor
  · rintro rfl hint
    have hacc : checkDDocAccess none name = .ok () := by
      simp [checkDDocAccess, hint]
    refine ⟨?_, ?_, ?_⟩
    · simp only [GetDesignDoc, hacc]
      cases g <;> rfl
    · simp only [PutDesignDoc, hacc]
      cases p <;> rfl
    · simp only [DeleteDesignDoc, hacc]
      cases d <;> rfl
  · intro h
    have hacc : checkDDocAccess user name = .error .forbidden := by
      rcases h with h | h
      · simp [checkDDocAccess, h]
      · simp [checkDDocAccess, h]
    refine ⟨?_, ?_, ?_⟩
    · simp only [GetDesignDoc, hacc]
    · simp only [PutDesignDoc, hacc]
    · simp only [DeleteDesignDoc, hacc]

/-- Witness for C3 amended: administrator on the non-internal name `byType`
delegates (here: store success); an end user on the same name is denied. -/
theorem C3_management_access_witness :
    GetDesignDoc none "byType" (.ok ()) = .ok ()
    ∧ GetDesignDoc (some ["chat"]) "byType" (.ok ()) = .error .forbidden :=
  ⟨((C3_management_access none "byType" (.ok ()) (.ok ()) (.ok ())
      ⟨[], none⟩).1 rfl rfl).1,
   ((C3_management_access (some ["chat"]) "byType" (.ok ()) (.ok ()) (.ok ())
      ⟨[], none⟩).2 (.inl rfl)).1⟩

/-- C4: `QueryDesignDoc` yields Forbidden exactly when an end-user principal
is attached and the index name is internal; administrators and end users on
non-internal names are never denied (only store errors or filtering apply). -/
theorem C4_query_access (user : Option (List String)) (name : String)
    (store : Except String ViewResult) (includeDocs reduce : Bool) :
    QueryDesignDoc user name store includeDocs reduce =
        some (.error .forbidden)
      ↔ (user.isSome = true ∧ isInternalDDoc name = true) := by
  constructor
  · intro h
    by_contra hcon
    have hgate : (user.isSome && isInternalDDoc name) = false := by
      cases hu : user.isSome <;> cases hi : isInternalDDoc name <;>
        simp_all
    simp only [QueryDesignDoc, hgate, Bool.false_eq_true, if_false] at h
    rcases store with e | result
    · simp at h
    · by_cases hi : isInternalDDoc name = true
      · rcases hd : includeDocs with _ | _ <;> simp [hi, hd] at h
      · simp only [hi, Bool.false_eq_true, if_false] at h
        rcases hf : filterViewResult result user reduce with _ | res
        · simp [hf] at h
        · simp [hf] at h
  · rintro ⟨hu, hi⟩
    simp [QueryDesignDoc, hu, hi]

/-- C5: a registered analytic query whose text does not start with the
channel-projection clause is Forbidden (no rows) for a restricted user, and
passes every store row through unfiltered for an unrestricted caller (no
principal, or wildcard in the channel set). -/
theorem C5_n1ql_gate (qs : String) (visible : List String)
    (e : Option String) (rows : List N1QLRow)
    (hne : (qs == "") = false)
    (hmeta : strHasPre qs metaClause = false) :
    (visible.contains "*" = false →
      N1QLQuery (some visible) qs e rows = some (.error .forbidden))
    ∧ N1QLQuery none qs e rows = some (.ok ⟨rows⟩)
    ∧ (visible.contains "*" = true →
      N1QLQuery (some visible) qs e rows = some (.ok ⟨rows⟩)) := by
  refine ⟨?_, ?_, ?_⟩
  · intro h
    have h2 : "*" ∉ visible := by simpa using h
    simp [N1QLQuery, hne, hmeta, h2]
  · simp [N1QLQuery, hne, n1qlFilterRows_nocheck]
  · intro h
    have h2 : "*" ∈ visible := by simpa using h
    simp [N1QLQuery, hne, hmeta, h2, n1qlFilterRows_nocheck]

/-- Witness for C5: a restricted user is refused a plain query; the same
query with no principal returns the store rows unfiltered. -/
theorem C5_n1ql_gate_witness :
    N1QLQuery (some ["chat"]) "SELECT id FROM bucket" none [] =
        some (.error .forbidden)
    ∧ N1QLQuery none "SELECT id FROM bucket" none [[("id", .num 7)]] =
        some (.ok ⟨[[("id", .num 7)]]⟩) :=
  ⟨(C5_n1ql_gate "SELECT id FROM bucket" ["chat"] none [] rfl rfl).1 rfl,
   (C5_n1ql_gate "SELECT id FROM bucket" [] none [[("id", .num 7)]]
      rfl rfl).2.1⟩

/-- C6 refuted: restricted user with channels `chat`; a row whose set of live
channel names is exactly the wildcard name `*` — disjoint from the user's
channel set (conjunct 1) — is nevertheless retained by the code, through the
wildcard branch of `channelsIntersect` (conjunct 2). -/
theorem C6_counterexample :
    ((liveChannelNames [("*", JSON.null)]).all
      (fun c => !(["chat"] : List String).contains c)) = true
    ∧ N1QLQuery (some ["chat"]) metaClause none [c6Row] =
        some (.ok ⟨[c6Row]⟩) :=
  ⟨rfl, rfl⟩

/-- C6 amended: for a channel-projection query and a restricted user, a row
whose `_channels` field is an object is retained iff its live channel names
(status null) intersect the user's channel set OR contain the wildcard `*`
(conjunct 2 restates `n1qlKeep` in those terms); retained rows appear in
store order, the rest are dropped. -/
theorem C6_n1ql_filter (qs : String) (visible : List String)
    (e : Option String) (rows : List N1QLRow)
    (hne : (qs == "") = false)
    (hmeta : strHasPre qs metaClause = true)
    (hres : visible.contains "*" = false)
    (hwf : ∀ r ∈ rows, ∀ v, lookupField r "_channels" = some v →
        v.isNull = true ∨ ∃ m, v = .obj m) :
    N1QLQuery (some visible) qs e rows =
      some (.ok ⟨rows.filter (n1qlKeep visible)⟩)
    ∧ (∀ r m, lookupField r "_channels" = some (.obj m) →
        (n1qlKeep visible r = true ↔
          ((∃ c ∈ liveChannelNames m, c ∈ visible)
            ∨ "*" ∈ liveChannelNames m))) := by
  constructor
  · have h2 : "*" ∉ visible := by simpa using hres
    simp [N1QLQuery, hne, hmeta, h2, n1qlFilterRows_check visible rows hwf]
  · intro r m hl
    simp only [n1qlKeep, hl]
    constructor
    · intro h
      have h2 : ∃ c ∈ liveChannelNames m, c ∈ visible ∨ c = "*" := by
        simpa using h
      rcases h2 with ⟨c, hc, h | rfl⟩
      · exact .inl ⟨c, hc, h⟩
      · exact .inr hc
    · intro h
      have h2 : ∃ c ∈ liveChannelNames m, c ∈ visible ∨ c = "*" := by
        rcases h with ⟨c, hc, hv⟩ | h
        · exact ⟨c, hc, .inl hv⟩
        · exact ⟨"*", h, .inr rfl⟩
      simpa using h2

/-- Witness for C6 amended: user channels `chat`; the row live on `chat` is
kept, the row live only on `other` is dropped, in store order. -/
theorem C6_n1ql_filter_witness :
    N1QLQuery (some ["chat"]) metaClause none [c6RowChat, c6RowOther] =
      some (.ok ⟨[c6RowChat]⟩) :=
  (C6_n1ql_filter metaClause ["chat"] none [c6RowChat, c6RowOther] rfl rfl rfl
    (by
      intro r hr v hv
      have hr2 : r = c6RowChat ∨ r = c6RowOther := by simpa using hr
      rcases hr2 with rfl | rfl <;>
        simp_all [lookupField, c6RowChat, c6RowOther] <;>
        exact .inr ⟨_, hv.symm⟩)).1

/-- C7: in the non-reduce path, the retained rows are exactly the kept tagged
entries in input order, each rewritten to value = actual value (the channel
list is gone), key and id preserved, doc `_sync`-stripped; TotalRows is the
input's count regardless of dropped rows; conjunct 2: a stripped doc retains
no `_sync` binding; conjunct 3: the unrestricted (no-principal) non-reduce
path rewrites every row the same way. -/
theorem C7_filter_rewrite (visible : List String) (total : Nat)
    (entries : List TaggedEntry) (hres : visible.contains "*" = false) :
    filterViewResult ⟨total, entries.map entryRow⟩ (some visible) false =
      some ⟨total, (entries.filter (entryKeep visible)).map
        (fun e => ⟨e.key, e.val, e.id, e.doc.map deleteSyncKey⟩)⟩
    ∧ (∀ d : List (String × JSON),
        (deleteSyncKey d).find? (fun kv => kv.1 == "_sync") = none)
    ∧ filterViewResult ⟨total, entries.map entryRow⟩ none false =
        some ⟨total, entries.map entryOut⟩ := by
  have h2 : "*" ∉ visible := by simpa using hres
  refine ⟨?_, deleteSyncKey_clean, ?_⟩
  · simp [filterViewResult, filterRows_check, h2, entryOut]
  · simp [filterViewResult, filterRows_nocheck]

/-- Witness for C7: total 5 with one kept and one dropped row; the kept row
shows the rewritten value, preserved key and id, and the `_sync`-stripped
doc. -/
theorem C7_filter_rewrite_witness :
    filterViewResult ⟨5, [entryRow exEntry1, entryRow exEntry2]⟩
        (some ["chat"]) false =
      some ⟨5, [⟨.str "k1", .obj [("type", .str "msg")], "doc1",
        some [("type", .str "msg")]⟩]⟩ :=
  (C7_filter_rewrite ["chat"] 5 [exEntry1, exEntry2] rfl).1

/-- C8: a design document whose options set raw leaves every stored view
unmodified; otherwise every view's map function is replaced, before the store
write, by the channel-injecting wrapper embedding the original map text
between the wrapper's header and footer. -/
theorem C8_put_wrapping (user : Option (List String)) (name : String)
    (views : List (String × ViewDef)) (opts : Option DesignDocOptions)
    (store : Except String Unit) :
    (opts = some ⟨true⟩ →
      ∀ d, (PutDesignDoc user name ⟨views, opts⟩ store).storeCall = some d →
        d.views = views)
    ∧ ((opts = none ∨ opts = some ⟨false⟩) →
      ∀ d, (PutDesignDoc user name ⟨views, opts⟩ store).storeCall = some d →
        d.views = views.map (fun nv =>
          (nv.1, { nv.2 with map := wrapHeader ++ nv.2.map ++ wrapFooter }))) := by
  constructor
  · rintro rfl d hd
    rcases hacc : checkDDocAccess user name with e | u <;>
      rcases hs : store with es | _ <;>
        simp_all [PutDesignDoc] <;>
        exact hd ▸ rfl
  · rintro (rfl | rfl) d hd <;>
      rcases hacc : checkDDocAccess user name with e | u <;>
        rcases hs : store with es | _ <;>
          simp_all [PutDesignDoc, wrapViews, wrapMapFn] <;>
          exact hd ▸ rfl

/-- Witness for C8: with raw set the stored views are the input views; with
no options they are the wrapped ones. -/
theorem C8_put_wrapping_witness :
    (⟨exViews, some ⟨true⟩⟩ : DesignDoc).views = exViews
    ∧ (⟨wrapViews exViews, none⟩ : DesignDoc).views = exViews.map (fun nv =>
        (nv.1, { nv.2 with map := wrapHeader ++ nv.2.map ++ wrapFooter })) :=
  ⟨(C8_put_wrapping none "byType" exViews (some ⟨true⟩) (.ok ())).1 rfl
      ⟨exViews, some ⟨true⟩⟩ rfl,
   (C8_put_wrapping none "byType" exViews none (.ok ())).2 (.inl rfl)
      ⟨wrapViews exViews, none⟩ rfl⟩

/-- C9 (code bug): `QueryDesignDoc` propagates a store failure as an error
with no rows (conjunct 2), but `N1QLQuery` binds the `ExecuteN1qlQuery` error
to `_`: with the store reporting a failure it still returns a success result
built from the cursor rows (conjunct 1), and its return value is entirely
independent of the store error (conjunct 3). -/
theorem C9_store_error :
    N1QLQuery none "SELECT id FROM bucket" (some "query failed")
        [[("id", .num 7)]] = some (.ok ⟨[[("id", .num 7)]]⟩)
    ∧ QueryDesignDoc (some ["chat"]) "byType" (.error "boom") false false =
        some (.error (.storeError "boom"))
    ∧ (∀ (u : Option (List String)) (qs : String) (e1 e2 : Option String)
        (rows : List N1QLRow),
        N1QLQuery u qs e1 rows = N1QLQuery u qs e2 rows) :=
  ⟨rfl, rfl, fun _ _ _ _ _ => rfl⟩

/-- C10: with raw unset, `PutDesignDoc` rewrites the caller-shared Views map
with the wrapper before the access check — so the map is wrapped even when
the call fails Forbidden — while the store write is made iff the access check
succeeds. -/
theorem C10_wrap_before_access (user : Option (List String)) (name : String)
    (views : List (String × ViewDef)) (opts : Option DesignDocOptions)
    (store : Except String Unit)
    (hraw : opts = none ∨ opts = some ⟨false⟩) :
    (PutDesignDoc user name ⟨views, opts⟩ store).viewsAfter = wrapViews views
    ∧ ((PutDesignDoc user name ⟨views, opts⟩ store).storeCall ≠ none ↔
        checkDDocAccess user name = .ok ())
    ∧ ((PutDesignDoc user name ⟨views, opts⟩ store).result = .error .forbidden →
        (PutDesignDoc user name ⟨views, opts⟩ store).storeCall = none) := by
  rcases hraw with rfl | rfl <;>
    rcases hacc : checkDDocAccess user name with e | u <;>
      rcases hs : store with es | _ <;>
        simp_all [PutDesignDoc]

/-- Witness for C10: an end user's put on `byType` is Forbidden, yet the
shared views map comes back wrapped; no store write happened. -/
theorem C10_wrap_before_access_witness :
    (PutDesignDoc (some ["chat"]) "byType" ⟨exViews, none⟩ (.ok ())).viewsAfter
      = wrapViews exViews :=
  (C10_wrap_before_access (some ["chat"]) "byType" exViews none (.ok ())
    (.inl rfl)).1
